import Mathlib

/-!
Verification of the temp-email-server mailbox store.

The definitions below are a shallow embedding of the `EmailManager` class
(src/unnamed/part_000).  JavaScript `Map` objects with string keys are
modelled as insertion-ordered association lists, timestamps (`Date` /
epoch milliseconds) as `Int`, and the sources of randomness
(`Math.random`, `Date.now`) as explicit parameters.  Configuration values
(`MAX_EMAILS_PER_ADDRESS`, the expiry window, `SAVE_EMAILS`) are passed
as explicit arguments where the corresponding method reads them.
-/

set_option autoImplicit false

/-- Lookup in an insertion-ordered association list: models `Map.get`
(first matching key; a well-formed JS map has unique keys). -/
def alistGet {α : Type} (l : List (String × α)) (k : String) : Option α :=
  match l with
  | [] => none
  | (k', v) :: rest => if k' = k then some v else alistGet rest k

/-- Update of an association list: models `Map.set` — replaces the entry in
place when the key is present, otherwise appends, keeping insertion order. -/
def alistSet {α : Type} (l : List (String × α)) (k : String) (v : α) : List (String × α) :=
  match l with
  | [] => [(k, v)]
  | (k', v') :: rest => if k' = k then (k, v) :: rest else (k', v') :: alistSet rest k v

/-- Per-mailbox counters: the `stats: { received, read }` object of a mailbox. -/
structure MailboxStats where
  received : Nat
  read : Nat
deriving Repr, DecidableEq

/-- A stored message, as built by `EmailManager.receiveEmail`.  The JS field
`from` is a Lean keyword and is called `fromAddr` here; `date` (an ISO
timestamp string in the code) is the epoch-millisecond value. -/
structure Message where
  id : String
  fromAddr : String
  toAddr : String
  subject : String
  text : String
  html : String
  headers : List (String × String)
  date : Int
  read : Bool
  attachments : Nat
deriving Repr, DecidableEq

/-- One mailbox: the value stored in `this.emails` for an address. -/
structure Mailbox where
  address : String
  created : Int
  messages : List Message
  stats : MailboxStats
deriving Repr, DecidableEq

/-- Store-wide counters (`this.stats`). -/
structure Stats where
  totalEmails : Nat
  totalAddresses : Nat
  startTime : Int
deriving Repr, DecidableEq

/-- One entry of `this.domainHistory`. -/
structure DomainHistoryEntry where
  email : String
  domain : String
  timestamp : Int
  type : String
deriving Repr, DecidableEq

/-- The mutable state of an `EmailManager` instance. -/
structure EmailManager where
  emails : List (String × Mailbox)
  domains : List String
  publicIP : Option String
  localIPs : List String
  domainHistory : List DomainHistoryEntry
  stats : Stats
deriving Repr, DecidableEq

/-- The parsed message handed to `receiveEmail` (`emailData`).  Fields the
code defaults with `||` are `Option`s here. -/
structure EmailData where
  fromAddr : String
  subject : Option String
  text : Option String
  html : Option String
  headers : List (String × String)
  attachments : Nat
deriving Repr, DecidableEq

/-- The value `receiveEmail` returns. -/
structure ReceiveResult where
  id : String
  address : String
  email : Message
  totalMessages : Nat
deriving Repr, DecidableEq

/-- The fresh mailbox `receiveEmail` (and `generateEmailAddress`) creates for
an address that has no entry yet. -/
def freshMailbox (address : String) (now : Int) : Mailbox :=
  { address := address, created := now, messages := [], stats := { received := 0, read := 0 } }

/-- The `savedEmail` object `receiveEmail` builds: generated id (`Date.now()`
string plus random suffix), defaults for missing subject/text/html, and
`read = false`. -/
def mkSavedEmail (now : Int) (rand : String) (toAddress : String) (d : EmailData) : Message :=
  { id := toString now ++ rand
    fromAddr := d.fromAddr
    toAddr := toAddress
    subject := d.subject.getD "No Subject"
    text := d.text.getD ""
    html := d.html.getD ""
    headers := d.headers
    date := now
    read := false
    attachments := d.attachments }

/-- `EmailManager.receiveEmail(toAddress, emailData)`: creates the mailbox if
absent (counting a new address), prepends the saved message, bumps the
per-mailbox and global counters, and truncates the list to
`MAX_EMAILS_PER_ADDRESS` (`cap`) when it exceeds the cap.  `now` stands for
`Date.now()` and `rand` for the random id suffix. -/
def receiveEmail (cap : Nat) (now : Int) (rand : String) (m : EmailManager)
    (toAddress : String) (d : EmailData) : ReceiveResult × EmailManager :=
  let m :=
    if (alistGet m.emails toAddress).isNone then
      { m with
        emails := alistSet m.emails toAddress (freshMailbox toAddress now)
        stats := { m.stats with totalAddresses := m.stats.totalAddresses + 1 } }
    else m
  let entry := (alistGet m.emails toAddress).getD (freshMailbox toAddress now)
  let savedEmail := mkSavedEmail now rand toAddress d
  let messages := savedEmail :: entry.messages
  let messages := if messages.length > cap then messages.take cap else messages
  let entry :=
    { entry with
      messages := messages
      stats := { entry.stats with received := entry.stats.received + 1 } }
  let m :=
    { m with
      emails := alistSet m.emails toAddress entry
      stats := { m.stats with totalEmails := m.stats.totalEmails + 1 } }
  ({ id := savedEmail.id, address := toAddress, email := savedEmail,
     totalMessages := messages.length }, m)

/-- `EmailManager.getEmailsForAddress`: the mailbox's message list, `[]` for
an unknown address. -/
def getEmailsForAddress (m : EmailManager) (a : String) : List Message :=
  match alistGet m.emails a with
  | some mb => mb.messages
  | none => []

/-- The `EmailManager` as built by the constructor (before IP detection). -/
def emptyManager : EmailManager :=
  { emails := []
    domains := ["localhost"]
    publicIP := none
    localIPs := []
    domainHistory := []
    stats := { totalEmails := 0, totalAddresses := 0, startTime := 0 } }

theorem alistGet_alistSet_self {α : Type} (l : List (String × α)) (k : String) (v : α) :
    alistGet (alistSet l k v) k = some v := by
  induction l with
  | nil => simp [alistGet, alistSet]
  | cons p rest ih =>
    by_cases h : p.1 = k <;> simp [alistGet, alistSet, h, ih]

theorem alistGet_alistSet_ne {α : Type} (l : List (String × α)) (k k' : String) (v : α)
    (h : k' ≠ k) : alistGet (alistSet l k v) k' = alistGet l k' := by
  induction l with
  | nil => simp [alistGet, alistSet, Ne.symm h]
  | cons p rest ih =>
    obtain ⟨k1, v1⟩ := p
    by_cases hp : k1 = k
    · simp [alistGet, alistSet, hp, Ne.symm h]
    · simp [alistGet, alistSet, hp, ih]

theorem alistSet_length_of_mem {α : Type} (l : List (String × α)) (k : String) (v : α)
    (h : (alistGet l k).isSome) : (alistSet l k v).length = l.length := by
  induction l with
  | nil => simp [alistGet] at h
  | cons p rest ih =>
    by_cases hp : p.1 = k
    · simp [alistSet, hp]
    · simp [alistGet, hp] at h
      simp [alistSet, hp, ih h]

/-- The message list stored by one `receiveEmail` call: the saved message is
prepended and the list truncated to the cap (uniformly `take cap`). -/
theorem getEmailsForAddress_receiveEmail (cap : Nat) (now : Int) (rand : String)
    (m : EmailManager) (a : String) (d : EmailData) :
    getEmailsForAddress (receiveEmail cap now rand m a d).2 a =
      (mkSavedEmail now rand a d :: getEmailsForAddress m a).take cap := by
  cases hget : alistGet m.emails a with
  | none =>
    simp only [receiveEmail, getEmailsForAddress, hget, Option.isNone_none, if_true,
      alistGet_alistSet_self, Option.getD_some, freshMailbox, List.length_cons,
      List.length_nil, Nat.zero_add]
    by_cases hcap : 1 > cap
    · have hc0 : cap = 0 := by omega
      subst hc0
      simp
    · have h1 : 1 ≤ cap := by omega
      rw [if_neg hcap, List.take_of_length_le (by simpa using h1)]
  | some mb =>
    simp only [receiveEmail, getEmailsForAddress, hget, Option.isNone_some, Bool.false_eq_true,
      if_false, alistGet_alistSet_self, Option.getD_some, List.length_cons]
    by_cases hcap : mb.messages.length + 1 > cap
    · rw [if_pos hcap]
    · rw [if_neg hcap, List.take_of_length_le (by simp; omega)]

/-- In `markAsRead` the mutation `email.read = true` hits the object found by
`messages.find(msg => msg.id === emailId)` — the first message with that id. -/
def setReadFirst (emailId : String) : List Message → List Message
  | [] => []
  | msg :: rest =>
    if msg.id = emailId then { msg with read := true } :: rest
    else msg :: setReadFirst emailId rest

/-- `EmailManager.markAsRead(emailAddress, emailId)`: `true` only when the
mailbox exists, the first message with that id is found, and it is unread;
then the flag is set and `stats.read` incremented.  (`saveToFile` is also
called on success; it does not change the in-memory state.) -/
def markAsRead (m : EmailManager) (emailAddress emailId : String) :
    Bool × EmailManager :=
  match alistGet m.emails emailAddress with
  | some entry =>
    match entry.messages.find? (fun msg => msg.id = emailId) with
    | some email =>
      if email.read = false then
        (true,
         { m with
           emails := alistSet m.emails emailAddress
             { entry with
               messages := setReadFirst emailId entry.messages
               stats := { entry.stats with read := entry.stats.read + 1 } } })
      else (false, m)
    | none => (false, m)
  | none => (false, m)

/-- `EmailManager.deleteAllEmails(emailAddress)`: clears the message list of
an existing mailbox (the mailbox record itself survives) and returns whether
the address existed. -/
def deleteAllEmails (m : EmailManager) (emailAddress : String) :
    Bool × EmailManager :=
  match alistGet m.emails emailAddress with
  | some entry =>
    (true, { m with emails := alistSet m.emails emailAddress { entry with messages := [] } })
  | none => (false, m)

/-- The object `EmailManager.getStats()` returns (spread of `this.stats` plus
derived fields). -/
structure StatsView where
  totalEmails : Nat
  totalAddresses : Nat
  startTime : Int
  uptime : Int
  activeAddresses : Nat
  domains : List String
  publicIP : Option String
  localIPs : List String
deriving Repr, DecidableEq

/-- `EmailManager.getStats()`; `now` stands for `Date.now()`. -/
def getStats (now : Int) (m : EmailManager) : StatsView :=
  { totalEmails := m.stats.totalEmails
    totalAddresses := m.stats.totalAddresses
    startTime := m.stats.startTime
    uptime := now - m.stats.startTime
    activeAddresses := m.emails.length
    domains := m.domains
    publicIP := m.publicIP
    localIPs := m.localIPs }

/-- The message filter of one sweep: `cleanupOldEmails` keeps a message iff
`now - new Date(msg.date).getTime() < expiryTime`. -/
def keptMessages (expiryTime now : Int) (msgs : List Message) : List Message :=
  msgs.filter (fun msg => now - msg.date < expiryTime)

/-- What `cleanupOldEmails` leaves behind and reports. -/
structure CleanupResult where
  manager : EmailManager
  deleted : Nat
  saved : Bool
deriving Repr, DecidableEq

/-- The per-entry pass of `cleanupOldEmails` over `this.emails.entries()`:
filters each mailbox's messages, counts the removed messages, and deletes a
mailbox that ends up empty and is itself older than the expiry window. -/
def cleanupEntries (expiryTime now : Int) :
    List (String × Mailbox) → List (String × Mailbox) × Nat
  | [] => ([], 0)
  | (a, data) :: rest =>
    let msgs := keptMessages expiryTime now data.messages
    let deleted := data.messages.length - msgs.length
    let r := cleanupEntries expiryTime now rest
    if msgs.length = 0 ∧ now - data.created > expiryTime then
      (r.1, deleted + r.2)
    else ((a, { data with messages := msgs }) :: r.1, deleted + r.2)

/-- `EmailManager.cleanupOldEmails()`: one sweep.  `expiryTime` is
`EMAIL_EXPIRY_HOURS * 60 * 60 * 1000`, `now` is `Date.now()`; `saved`
records whether `this.saveToFile()` was invoked (only when
`deletedCount > 0`). -/
def cleanupOldEmails (expiryTime now : Int) (m : EmailManager) : CleanupResult :=
  let r := cleanupEntries expiryTime now m.emails
  { manager := { m with emails := r.1 }
    deleted := r.2
    saved := decide (r.2 > 0) }

/-- `EmailManager.isValidUsername`: the test `/^[a-z0-9_.-]{3,20}$/`. -/
def validUsernameChar (c : Char) : Bool :=
  ('a' ≤ c ∧ c ≤ 'z') ∨ ('0' ≤ c ∧ c ≤ '9') ∨ c = '_' ∨ c = '.' ∨ c = '-'

/-- `EmailManager.isValidUsername(username)`. -/
def isValidUsername (username : String) : Bool :=
  3 ≤ username.length ∧ username.length ≤ 20 ∧ username.data.all validUsernameChar

/-- The fixed adjective list of `generateRandomUsername`. -/
def adjectives : List String :=
  ["quick", "clever", "happy", "brave", "calm", "eager", "gentle", "jolly", "smart", "wise"]

/-- The fixed noun list of `generateRandomUsername`. -/
def nouns : List String :=
  ["fox", "bear", "wolf", "eagle", "lion", "tiger", "panda", "hawk", "owl", "deer"]

/-- `EmailManager.generateRandomUsername()`: the random draws
(`Math.floor(Math.random()*...)`) are the parameters `ai`, `ni` (indices
below 10) and `num` (below 999). -/
def generateRandomUsername (ai ni num : Nat) : String :=
  ((adjectives.getD ai "") ++ "_" ++ (nouns.getD ni "") ++ "_" ++ toString num).toLower

/-- Options of `generateEmailAddress` (`username`, `domain`, `type`,
the latter defaulting to "public"). -/
structure GenOptions where
  username : Option String := none
  domain : Option String := none
  type : String := "public"
deriving Repr, DecidableEq

/-- The part of the `generateEmailAddress` return value that the claims are
about (the presentation-only fields `smtpServer`, `webInterface` and
`instructions` are omitted). -/
structure GenResult where
  email : String
  domain : String
  isPublic : Bool
  isLocal : Bool
deriving Repr, DecidableEq

/-- The username selection of `generateEmailAddress`: a valid custom
username is used verbatim, anything else falls back to
`generateRandomUsername`. -/
def chooseUsername (ai ni num : Nat) (options : GenOptions) : String :=
  match options.username with
  | some customUsername =>
    if isValidUsername customUsername then customUsername
    else generateRandomUsername ai ni num
  | none => generateRandomUsername ai ni num

/-- The domain selection of `generateEmailAddress` (`di` is the random
index draw; an out-of-range JS array read yields `undefined`). -/
def chooseDomain (di : Nat) (m : EmailManager) (options : GenOptions) : String :=
  let domains := m.domains
  let byType :=
    if options.type = "public" ∧ m.publicIP.isSome then m.publicIP.getD ""
    else if options.type = "local" then
      let localDomains := domains.filter (fun d => some d ≠ m.publicIP ∧ d ≠ "localhost")
      localDomains.getD 0 "localhost"
    else domains.getD (di % domains.length) "undefined"
  match options.domain with
  | some preferredDomain =>
    if preferredDomain ∈ domains then preferredDomain else byType
  | none => byType

/-- The `if (!this.emails.has(email))` block of `generateEmailAddress` (and
the identical block of `receiveEmail`): create an empty mailbox and count a
new address. -/
def ensureMailbox (m : EmailManager) (email : String) (now : Int) : EmailManager :=
  if (alistGet m.emails email).isNone then
    { m with
      emails := alistSet m.emails email (freshMailbox email now)
      stats := { m.stats with totalAddresses := m.stats.totalAddresses + 1 } }
  else m

/-- `EmailManager.generateEmailAddress(options)`.  The random draws are
explicit: `ai`, `ni`, `num` feed `generateRandomUsername` and `di` the
random domain pick; `now` stands for `new Date()`. -/
def generateEmailAddress (now : Int) (ai ni num di : Nat) (m : EmailManager)
    (options : GenOptions) : GenResult × EmailManager :=
  let username := chooseUsername ai ni num options
  let domain := chooseDomain di m options
  let email := username ++ "@" ++ domain
  let m1 := ensureMailbox m email now
  let histType :=
    if domain = "localhost" ∨ (domain ∈ m.localIPs ∧ some domain ≠ m.publicIP) then "local"
    else "public"
  let m2 :=
    { m1 with
      domainHistory := m1.domainHistory ++
        [{ email := email, domain := domain, timestamp := now, type := histType }] }
  ({ email := email
     domain := domain
     isPublic := some domain = m.publicIP
     isLocal := domain = "localhost" ∨ domain ∈ m.localIPs }, m2)

/-- The JSON value tree.  `saveToFile` writes `JSON.stringify(data)` and
`loadFromFile` reads `JSON.parse(...)`; stringify-then-parse is the identity
at this tree level (library guarantee), so persistence is modelled as the
tree itself.  Dates (serialized as ISO strings by `JSON.stringify`) are
carried as their epoch-millisecond numbers. -/
inductive Json where
  | jnull : Json
  | jbool : Bool → Json
  | jnum : Int → Json
  | jstr : String → Json
  | jarr : List Json → Json
  | jobj : List (String × Json) → Json

/-- JSON encoding of a headers object. -/
def encodeHeaders (hs : List (String × String)) : Json :=
  Json.jobj (hs.map (fun p => (p.1, Json.jstr p.2)))

/-- JSON encoding of one saved message, field for field as `receiveEmail`
stores it. -/
def encodeMessage (msg : Message) : Json :=
  Json.jobj
    [("id", Json.jstr msg.id),
     ("from", Json.jstr msg.fromAddr),
     ("to", Json.jstr msg.toAddr),
     ("subject", Json.jstr msg.subject),
     ("text", Json.jstr msg.text),
     ("html", Json.jstr msg.html),
     ("headers", encodeHeaders msg.headers),
     ("date", Json.jnum msg.date),
     ("read", Json.jbool msg.read),
     ("attachments", Json.jnum (msg.attachments : Int))]

/-- JSON encoding of one mailbox value of `this.emails`. -/
def encodeMailbox (mb : Mailbox) : Json :=
  Json.jobj
    [("address", Json.jstr mb.address),
     ("created", Json.jnum mb.created),
     ("messages", Json.jarr (mb.messages.map encodeMessage)),
     ("stats", Json.jobj
       [("received", Json.jnum (mb.stats.received : Int)),
        ("read", Json.jnum (mb.stats.read : Int))])]

/-- JSON encoding of `this.stats`. -/
def encodeStats (s : Stats) : Json :=
  Json.jobj
    [("totalEmails", Json.jnum (s.totalEmails : Int)),
     ("totalAddresses", Json.jnum (s.totalAddresses : Int)),
     ("startTime", Json.jnum s.startTime)]

/-- The `data` object `saveToFile` serializes:
`{ emails: Object.fromEntries(this.emails), stats: this.stats, savedAt }`. -/
def snapshotJson (savedAt : Int) (m : EmailManager) : Json :=
  Json.jobj
    [("emails", Json.jobj (m.emails.map (fun p => (p.1, encodeMailbox p.2)))),
     ("stats", encodeStats m.stats),
     ("savedAt", Json.jnum savedAt)]

/-- `EmailManager.saveToFile()`: returns the JSON tree written to
`emails.json`, or `none` when `config.SAVE_EMAILS` is off (the method
returns without writing). -/
def saveToFile (saveEmails : Bool) (savedAt : Int) (m : EmailManager) : Option Json :=
  if saveEmails then some (snapshotJson savedAt m) else none

/-- Option-valued traversal used by the decoders. -/
def optTraverse {α β : Type} (f : α → Option β) : List α → Option (List β)
  | [] => some []
  | x :: xs =>
    match f x, optTraverse f xs with
    | some y, some ys => some (y :: ys)
    | _, _ => none

/-- Decoding of a headers object (inverse of `encodeHeaders`). -/
def decodeHeaders : Json → Option (List (String × String))
  | Json.jobj fields =>
    optTraverse (fun p => match p.2 with
      | Json.jstr s => some (p.1, s)
      | _ => none) fields
  | _ => none

/-- Decoding of one message, reading exactly the fields `saveToFile` wrote. -/
def decodeMessage (j : Json) : Option Message :=
  match j with
  | Json.jobj fields =>
    match alistGet fields "id", alistGet fields "from", alistGet fields "to",
      alistGet fields "subject", alistGet fields "text", alistGet fields "html",
      alistGet fields "headers", alistGet fields "date", alistGet fields "read",
      alistGet fields "attachments" with
    | some (Json.jstr id), some (Json.jstr fromAddr), some (Json.jstr toAddr),
      some (Json.jstr subject), some (Json.jstr text), some (Json.jstr html),
      some headersJ, some (Json.jnum date), some (Json.jbool read),
      some (Json.jnum att) =>
      match decodeHeaders headersJ with
      | some headers =>
        some { id := id, fromAddr := fromAddr, toAddr := toAddr, subject := subject,
               text := text, html := html, headers := headers, date := date,
               read := read, attachments := att.toNat }
      | none => none
    | _, _, _, _, _, _, _, _, _, _ => none
  | _ => none

/-- Decoding of one mailbox (inverse of `encodeMailbox`). -/
def decodeMailbox (j : Json) : Option Mailbox :=
  match j with
  | Json.jobj fields =>
    match alistGet fields "address", alistGet fields "created",
      alistGet fields "messages", alistGet fields "stats" with
    | some (Json.jstr address), some (Json.jnum created),
      some (Json.jarr messagesJ), some (Json.jobj statsFields) =>
      match alistGet statsFields "received", alistGet statsFields "read",
        optTraverse decodeMessage messagesJ with
      | some (Json.jnum received), some (Json.jnum readc), some messages =>
        some { address := address, created := created, messages := messages,
               stats := { received := received.toNat, read := readc.toNat } }
      | _, _, _ => none
    | _, _, _, _ => none
  | _ => none

/-- Decoding of the `emails` object back to the address → mailbox map
(`new Map(Object.entries(data.emails || {}))`). -/
def decodeEmails (j : Json) : Option (List (String × Mailbox)) :=
  match j with
  | Json.jobj fields =>
    optTraverse (fun p => (decodeMailbox p.2).map (fun mb => (p.1, mb))) fields
  | _ => none

/-- Decoding of the aggregate stats object. -/
def decodeStats (j : Json) : Option Stats :=
  match j with
  | Json.jobj fields =>
    match alistGet fields "totalEmails", alistGet fields "totalAddresses",
      alistGet fields "startTime" with
    | some (Json.jnum te), some (Json.jnum ta), some (Json.jnum st) =>
      some { totalEmails := te.toNat, totalAddresses := ta.toNat, startTime := st }
    | _, _, _ => none
  | _ => none

/-- `EmailManager.loadFromFile()` applied to the parsed JSON tree `j`:
replaces `this.emails` with `new Map(Object.entries(data.emails || {}))` and
`this.stats` with `data.stats || this.stats`; any failure (the `catch`
branch) leaves the state as it was. -/
def loadFromFile (m : EmailManager) (j : Json) : EmailManager :=
  match j with
  | Json.jobj fields =>
    let emailsJ := (alistGet fields "emails").getD (Json.jobj [])
    match decodeEmails emailsJ with
    | some emails =>
      let stats :=
        match alistGet fields "stats" with
        | some sj => (decodeStats sj).getD m.stats
        | none => m.stats
      { m with emails := emails, stats := stats }
    | none => m
  | _ => m

/-- The returned `totalMessages` is the length of the (possibly truncated)
stored list. -/
theorem receiveEmail_totalMessages (cap : Nat) (now : Int) (rand : String)
    (m : EmailManager) (a : String) (d : EmailData) :
    (receiveEmail cap now rand m a d).1.totalMessages =
      ((mkSavedEmail now rand a d :: getEmailsForAddress m a).take cap).length := by
  cases hget : alistGet m.emails a with
  | none =>
    simp only [receiveEmail, getEmailsForAddress, hget, Option.isNone_none, if_true,
      alistGet_alistSet_self, Option.getD_some, freshMailbox, List.length_cons,
      List.length_nil, Nat.zero_add]
    by_cases hcap : 1 > cap
    · have hc0 : cap = 0 := by omega
      subst hc0
      simp
    · have h1 : 1 ≤ cap := by omega
      rw [if_neg hcap, List.take_of_length_le (by simpa using h1)]
  | some mb =>
    simp only [receiveEmail, getEmailsForAddress, hget, Option.isNone_some, Bool.false_eq_true,
      if_false, alistGet_alistSet_self, Option.getD_some, List.length_cons]
    by_cases hcap : mb.messages.length + 1 > cap
    · rw [if_pos hcap]
    · rw [if_neg hcap, List.take_of_length_le (by simp; omega)]

theorem receiveEmail_fst_email (cap : Nat) (now : Int) (rand : String)
    (m : EmailManager) (a : String) (d : EmailData) :
    (receiveEmail cap now rand m a d).1.email = mkSavedEmail now rand a d := rfl

theorem receiveEmail_fst_id (cap : Nat) (now : Int) (rand : String)
    (m : EmailManager) (a : String) (d : EmailData) :
    (receiveEmail cap now rand m a d).1.id = (mkSavedEmail now rand a d).id := rfl

/-- C1: immediately after `receiveEmail(a, m)` (with a positive message cap,
as any configured `MAX_EMAILS_PER_ADDRESS` is), `getEmailsForAddress(a)` is
non-empty, its first element is the stored form of the message — the
`savedEmail` object, carrying the generated id and `read = false` and the
defaulted subject — and the call returns that id together with the
mailbox's new message count. -/
theorem deposit_then_list_first (cap : Nat) (now : Int) (rand : String)
    (m : EmailManager) (a : String) (d : EmailData) (hcap : 1 ≤ cap) :
    getEmailsForAddress (receiveEmail cap now rand m a d).2 a ≠ [] ∧
    (getEmailsForAddress (receiveEmail cap now rand m a d).2 a).head? =
      some (receiveEmail cap now rand m a d).1.email ∧
    (receiveEmail cap now rand m a d).1.email = mkSavedEmail now rand a d ∧
    (receiveEmail cap now rand m a d).1.email.read = false ∧
    (receiveEmail cap now rand m a d).1.email.subject = d.subject.getD "No Subject" ∧
    (receiveEmail cap now rand m a d).1.email.fromAddr = d.fromAddr ∧
    (receiveEmail cap now rand m a d).1.id = (receiveEmail cap now rand m a d).1.email.id ∧
    (receiveEmail cap now rand m a d).1.totalMessages =
      (getEmailsForAddress (receiveEmail cap now rand m a d).2 a).length := by
  obtain ⟨c, rfl⟩ : ∃ c, cap = c + 1 := ⟨cap - 1, by omega⟩
  rw [getEmailsForAddress_receiveEmail, receiveEmail_totalMessages]
  refine ⟨by simp [List.take_succ_cons], by simp [List.take_succ_cons, receiveEmail_fst_email],
    receiveEmail_fst_email _ _ _ _ _ _, rfl, rfl, rfl, rfl, rfl⟩

/-- A message handed to `receiveEmail` for a sequence of deposits: the
`Date.now()` value, the random id suffix, and the parsed mail. -/
structure DepositInput where
  now : Int
  rand : String
  data : EmailData
deriving Repr, DecidableEq

/-- Folding `receiveEmail` over a list of deposits to one address. -/
def depositAll (cap : Nat) (a : String) (ds : List DepositInput) (m : EmailManager) :
    EmailManager :=
  ds.foldl (fun acc d => (receiveEmail cap d.now d.rand acc a d.data).2) m

/-- The stored form of one deposit. -/
def savedOf (a : String) (d : DepositInput) : Message :=
  mkSavedEmail d.now d.rand a d.data

theorem take_append_take {α : Type} (xs ys : List α) (n : Nat) :
    (xs ++ ys.take n).take n = (xs ++ ys).take n := by
  rw [List.take_append_eq_append_take, List.take_append_eq_append_take, List.take_take]
  congr 2
  omega

theorem depositAll_getEmails (cap : Nat) (a : String) (ds : List DepositInput)
    (m : EmailManager) (h : (getEmailsForAddress m a).length ≤ cap) :
    getEmailsForAddress (depositAll cap a ds m) a =
      ((ds.map (savedOf a)).reverse ++ getEmailsForAddress m a).take cap := by
  induction ds generalizing m with
  | nil => simp [depositAll, List.take_of_length_le h]
  | cons d ds ih =>
    have hstep := getEmailsForAddress_receiveEmail cap d.now d.rand m a d.data
    have hlen : (getEmailsForAddress (receiveEmail cap d.now d.rand m a d.data).2 a).length
        ≤ cap := by
      rw [hstep]
      simp
    have hfold : depositAll cap a (d :: ds) m =
        depositAll cap a ds (receiveEmail cap d.now d.rand m a d.data).2 := by
      simp [depositAll]
    rw [hfold, ih _ hlen, hstep]
    show ((ds.map (savedOf a)).reverse ++ (savedOf a d :: getEmailsForAddress m a).take cap).take cap
      = _
    rw [take_append_take]
    simp

/-- C2: a sequence of deposits to one (initially unknown) address leaves in
the mailbox exactly the most recent `cap` deposits, newest first — so the
length never exceeds `MAX_EMAILS_PER_ADDRESS` and the cap evicts oldest
first.  (Instantiating `ds` with each prefix of a longer sequence gives the
state after each deposit.) -/
theorem deposit_sequence_cap_invariant (cap : Nat) (a : String) (ds : List DepositInput)
    (m : EmailManager) (h : alistGet m.emails a = none) :
    getEmailsForAddress (depositAll cap a ds m) a =
      ((ds.map (savedOf a)).reverse).take cap ∧
    (getEmailsForAddress (depositAll cap a ds m) a).length ≤ cap := by
  have h0 : getEmailsForAddress m a = [] := by simp [getEmailsForAddress, h]
  have := depositAll_getEmails cap a ds m (by simp [h0])
  rw [h0, List.append_nil] at this
  exact ⟨this, by rw [this]; simp⟩

/-- C7: `deleteAllEmails` returns `true` exactly when the address exists in
the store (also when its mailbox holds zero messages), and on `true` the
message list is empty afterwards. -/
theorem deleteAll_true_iff_address_exists (m : EmailManager) (a : String) :
    ((deleteAllEmails m a).1 = true ↔ (alistGet m.emails a).isSome = true) ∧
    ((deleteAllEmails m a).1 = true →
      getEmailsForAddress (deleteAllEmails m a).2 a = []) := by
  cases hget : alistGet m.emails a with
  | some entry =>
    refine ⟨by simp [deleteAllEmails, hget], fun _ => ?_⟩
    simp [deleteAllEmails, hget, getEmailsForAddress, alistGet_alistSet_self]
  | none => simp [deleteAllEmails, hget]

/-- C10: on an existing address, `deleteAllEmails` clears only the `messages`
array — the mailbox record survives with `created` and both counters
unchanged, the active-address count is unchanged, a following
`getEmailsForAddress` returns `[]`, and a second `deleteAllEmails` still
returns `true`. -/
theorem deleteAll_frame (now : Int) (m : EmailManager) (a : String) (mb : Mailbox)
    (h : alistGet m.emails a = some mb) :
    (deleteAllEmails m a).1 = true ∧
    alistGet (deleteAllEmails m a).2.emails a = some { mb with messages := [] } ∧
    ({ mb with messages := ([] : List Message) }).created = mb.created ∧
    ({ mb with messages := ([] : List Message) }).stats = mb.stats ∧
    (getStats now (deleteAllEmails m a).2).activeAddresses =
      (getStats now m).activeAddresses ∧
    getEmailsForAddress (deleteAllEmails m a).2 a = [] ∧
    (deleteAllEmails (deleteAllEmails m a).2 a).1 = true := by
  refine ⟨by simp [deleteAllEmails, h], ?_, rfl, rfl, ?_, ?_, ?_⟩
  · simp [deleteAllEmails, h, alistGet_alistSet_self]
  · simp only [deleteAllEmails, h, getStats]
    exact alistSet_length_of_mem _ _ _ (by simp [h])
  · simp [deleteAllEmails, h, getEmailsForAddress, alistGet_alistSet_self]
  · simp [deleteAllEmails, h, alistGet_alistSet_self]

theorem find?_setReadFirst (emailId : String) (l : List Message) (msg : Message)
    (h : l.find? (fun x => x.id = emailId) = some msg) :
    (setReadFirst emailId l).find? (fun x => x.id = emailId) =
      some { msg with read := true } := by
  induction l with
  | nil => simp at h
  | cons x rest ih =>
    by_cases hx : x.id = emailId
    · have hh : List.find? (fun x => x.id = emailId) (x :: rest) = some x := by
        simp [List.find?_cons_of_pos, hx]
      rw [hh] at h
      have hmx : msg = x := by injection h with h; exact h.symm
      subst hmx
      simp only [setReadFirst, if_pos hx]
      simp [List.find?_cons_of_pos, hx]
    · have hh : List.find? (fun x => x.id = emailId) (x :: rest) =
          List.find? (fun x => x.id = emailId) rest := by
        simp [List.find?_cons_of_neg, hx]
      rw [hh] at h
      simp only [setReadFirst, if_neg hx]
      have hh2 : List.find? (fun y => y.id = emailId) (x :: setReadFirst emailId rest) =
          List.find? (fun y => y.id = emailId) (setReadFirst emailId rest) := by
        simp [List.find?_cons_of_neg, hx]
      rw [hh2]
      exact ih h

/-- C3: `markAsRead` returns `true` exactly when the mailbox exists, the
addressed message (the first one with that id) is found, and its `read`
flag is still `false`; in that case the flag becomes `true` and the
mailbox's `readCount` grows by exactly one, and an immediate second call
with the same id returns `false` and changes nothing (no double
increment). -/
theorem markAsRead_transition (m : EmailManager) (a emailId : String) :
    ((markAsRead m a emailId).1 = true ↔
      ∃ mb, alistGet m.emails a = some mb ∧
        ∃ msg, mb.messages.find? (fun x => x.id = emailId) = some msg ∧
          msg.read = false) ∧
    (∀ mb msg, alistGet m.emails a = some mb →
      mb.messages.find? (fun x => x.id = emailId) = some msg → msg.read = false →
      (∃ mb', alistGet (markAsRead m a emailId).2.emails a = some mb' ∧
        mb'.stats.read = mb.stats.read + 1 ∧
        mb'.messages.find? (fun x => x.id = emailId) = some { msg with read := true }) ∧
      markAsRead (markAsRead m a emailId).2 a emailId =
        (false, (markAsRead m a emailId).2)) := by
  constructor
  · cases hget : alistGet m.emails a with
    | none => simp [markAsRead, hget]
    | some entry =>
      cases hfind : entry.messages.find? (fun x => x.id = emailId) with
      | none => simp [markAsRead, hget, hfind]
      | some msg =>
        cases hread : msg.read with
        | false => simp [markAsRead, hget, hfind, hread]
        | true => simp [markAsRead, hget, hfind, hread]
  · intro mb msg hget hfind hread
    have hmark : markAsRead m a emailId =
        (true,
         { m with
           emails := alistSet m.emails a
             { mb with
               messages := setReadFirst emailId mb.messages
               stats := { mb.stats with read := mb.stats.read + 1 } } }) := by
      simp [markAsRead, hget, hfind, hread]
    have hfind' := find?_setReadFirst emailId mb.messages msg hfind
    constructor
    · exact ⟨_, by rw [hmark]; exact alistGet_alistSet_self _ _ _, rfl, hfind'⟩
    · rw [hmark]
      simp [markAsRead, alistGet_alistSet_self, hfind']

theorem alistGet_eq_none_iff {α : Type} (l : List (String × α)) (k : String) :
    alistGet l k = none ↔ k ∉ l.map Prod.fst := by
  induction l with
  | nil => simp [alistGet]
  | cons p rest ih =>
    simp only [alistGet, List.map_cons, List.mem_cons]
    by_cases hp : p.1 = k
    · simp [hp]
    · rw [if_neg hp, ih]
      constructor
      · intro hn hmem
        rcases hmem with hmem | hmem
        · exact hp hmem.symm
        · exact hn hmem
      · intro hn hmem
        exact hn (Or.inr hmem)

theorem alistGet_cleanupEntries_none (expiryTime now : Int) (l : List (String × Mailbox))
    (a : String) (h : alistGet l a = none) :
    alistGet (cleanupEntries expiryTime now l).1 a = none := by
  induction l with
  | nil => simp [cleanupEntries, alistGet]
  | cons p rest ih =>
    obtain ⟨k, mb⟩ := p
    have hk : ¬ k = a := by
      intro hk
      simp [alistGet, hk] at h
    have hrest : alistGet rest a = none := by
      simpa [alistGet, hk] using h
    simp only [cleanupEntries]
    by_cases hdel : (keptMessages expiryTime now mb.messages).length = 0 ∧
        now - mb.created > expiryTime
    · simp only [if_pos hdel]
      exact ih hrest
    · simp only [if_neg hdel, alistGet, hk, if_false]
      exact ih hrest

/-- One sweep, observed per address: messages with
`now - receivedAt ≥ expiryTime` are dropped, and the mailbox itself is
dropped exactly when it is empty after the filter and strictly older than
the expiry window. -/
theorem alistGet_cleanupEntries (expiryTime now : Int) (l : List (String × Mailbox))
    (h : (l.map Prod.fst).Nodup) (a : String) :
    alistGet (cleanupEntries expiryTime now l).1 a =
      (alistGet l a).bind (fun mb =>
        if (keptMessages expiryTime now mb.messages).length = 0 ∧
            now - mb.created > expiryTime then none
        else some { mb with messages := keptMessages expiryTime now mb.messages }) := by
  induction l with
  | nil => simp [cleanupEntries, alistGet]
  | cons p rest ih =>
    obtain ⟨k, mb⟩ := p
    simp only [List.map_cons, List.nodup_cons] at h
    by_cases hka : k = a
    · subst hka
      have hnone : alistGet rest k = none := (alistGet_eq_none_iff rest k).2 h.1
      by_cases hdel : (keptMessages expiryTime now mb.messages).length = 0 ∧
          now - mb.created > expiryTime
      · simp only [cleanupEntries, if_pos hdel, alistGet, eq_self_iff_true, if_true,
          Option.some_bind]
        rw [alistGet_cleanupEntries_none expiryTime now rest k hnone]
      · simp only [cleanupEntries, if_neg hdel, alistGet, eq_self_iff_true, if_true,
          Option.some_bind]
    · by_cases hdel : (keptMessages expiryTime now mb.messages).length = 0 ∧
          now - mb.created > expiryTime
      · simp only [cleanupEntries, if_pos hdel, alistGet, if_neg hka]
        exact ih h.2
      · simp only [cleanupEntries, if_neg hdel, alistGet, if_neg hka]
        exact ih h.2

/-- C5 (amended): one sweep removes from every mailbox exactly the messages
at least as old as the expiry window (`now - receivedAt ≥ expiryTime`, i.e.
including the message exactly at the boundary), and removes a mailbox
entirely iff its message list is empty after that filtering and its
`createdAt` is strictly older than the window — so it never removes a
mailbox that still has live messages. -/
theorem cleanup_removes_expired (expiryTime now : Int) (m : EmailManager)
    (h : (m.emails.map Prod.fst).Nodup) (a : String) :
    alistGet (cleanupOldEmails expiryTime now m).manager.emails a =
      (alistGet m.emails a).bind (fun mb =>
        if (keptMessages expiryTime now mb.messages).length = 0 ∧
            now - mb.created > expiryTime then none
        else some { mb with messages := keptMessages expiryTime now mb.messages }) := by
  exact alistGet_cleanupEntries expiryTime now m.emails h a

/-- Messages a sweep would drop, computed directly from the input state. -/
def messagesRemoved (expiryTime now : Int) (m : EmailManager) : Nat :=
  (m.emails.map
    (fun p => p.2.messages.length - (keptMessages expiryTime now p.2.messages).length)).sum

theorem cleanupEntries_deleted (expiryTime now : Int) (l : List (String × Mailbox)) :
    (cleanupEntries expiryTime now l).2 =
      (l.map
        (fun p => p.2.messages.length -
          (keptMessages expiryTime now p.2.messages).length)).sum := by
  induction l with
  | nil => simp [cleanupEntries]
  | cons p rest ih =>
    obtain ⟨k, mb⟩ := p
    simp only [cleanupEntries, List.map_cons, List.sum_cons]
    split <;> simp [ih]

/-- C8 (amended): a sweep triggers the persistence checkpoint
(`saveToFile`) iff it removed at least one message; removing only (empty,
expired) mailboxes does not trigger it. -/
theorem cleanup_saves_iff_messages_removed (expiryTime now : Int) (m : EmailManager) :
    (cleanupOldEmails expiryTime now m).saved = true ↔
      0 < messagesRemoved expiryTime now m := by
  simp [cleanupOldEmails, cleanupEntries_deleted, messagesRemoved]

/-- A concrete parsed mail used by the concrete-input theorems. -/
def sampleData : EmailData :=
  { fromAddr := "sender@example.com", subject := some "Hi", text := some "t",
    html := none, headers := [("x", "y")], attachments := 0 }

/-- A concrete stored message (unread, received at t = 90). -/
def sampleMsg : Message :=
  { id := "m1", fromAddr := "sender@example.com", toAddr := "u@localhost",
    subject := "Hi", text := "t", html := "", headers := [], date := 90,
    read := false, attachments := 0 }

/-- A concrete mailbox holding `sampleMsg`, created at t = 95. -/
def sampleMailbox : Mailbox :=
  { address := "u@localhost", created := 95, messages := [sampleMsg],
    stats := { received := 1, read := 0 } }

/-- A store with the one mailbox `sampleMailbox`. -/
def sampleManager : EmailManager :=
  { emptyManager with emails := [("u@localhost", sampleMailbox)] }

/-- A store whose one mailbox is empty and long past the expiry window. -/
def oldEmptyManager : EmailManager :=
  { emptyManager with
    emails := [("old@localhost",
      { address := "old@localhost", created := 0, messages := [],
        stats := { received := 0, read := 0 } })] }

/-- Counterexample to C5 as stated: with expiry window 10 and now = 100, the
message of `sampleManager` has `receivedAt = 90 = now - expiryWindow` — it is
NOT older than `now - expiryWindow` — yet the sweep removes it (the code
keeps a message only when `now - receivedAt < expiryTime`, dropping the
boundary case the claim says is kept). -/
theorem cleanup_boundary_counterexample :
    ¬ (sampleMsg.date < 100 - 10) ∧
    sampleMsg ∈ sampleMailbox.messages ∧
    alistGet sampleManager.emails "u@localhost" = some sampleMailbox ∧
    alistGet (cleanupOldEmails 10 100 sampleManager).manager.emails "u@localhost" =
      some { sampleMailbox with messages := [] } := by
  refine ⟨by decide, by decide, rfl, rfl⟩

/-- Counterexample to C8 as stated: a sweep that deletes a mailbox (the
empty, expired `old@localhost`) but zero messages does not trigger
`saveToFile` — the code checkpoints only when `deletedCount > 0`, counting
messages alone. -/
theorem cleanup_mailbox_only_no_save_counterexample :
    (alistGet oldEmptyManager.emails "old@localhost").isSome = true ∧
    alistGet (cleanupOldEmails 10 100 oldEmptyManager).manager.emails "old@localhost" =
      none ∧
    (cleanupOldEmails 10 100 oldEmptyManager).saved = false := by
  refine ⟨rfl, rfl, rfl⟩

/-- Counterexample to C6 as stated: a deposit to the mixed-case recipient
"User@localhost" does not land in the mailbox of "user@localhost" — the
store keys the mailbox by the verbatim string, so the lowercase lookup is
empty while the verbatim lookup holds the message. -/
theorem deposit_not_lowercased_counterexample :
    getEmailsForAddress
      (receiveEmail 100 5 "abc" emptyManager "User@localhost" sampleData).2
      "user@localhost" = [] ∧
    (getEmailsForAddress
      (receiveEmail 100 5 "abc" emptyManager "User@localhost" sampleData).2
      "User@localhost").length = 1 := by
  refine ⟨rfl, rfl⟩

/-- A character admitted by the username pattern `[a-z0-9_.-]` is already
lowercase. -/
theorem toLower_validUsernameChar (c : Char) (h : validUsernameChar c = true) :
    c.toLower = c := by
  simp only [validUsernameChar, decide_eq_true_eq, Bool.or_eq_true] at h
  unfold Char.toLower
  rw [if_neg]
  intro hc
  have h1 : (65 : Nat) ≤ c.toNat := by exact_mod_cast hc.1
  have h2 : c.toNat ≤ 90 := by exact_mod_cast hc.2
  rcases h with h | h | h | h | h
  · have : 97 ≤ c.toNat := h.1
    omega
  · have : c.toNat ≤ 57 := h.2
    omega
  · subst h
    exact absurd h2 (by decide)
  · subst h
    exact absurd h1 (by decide)
  · subst h
    exact absurd h1 (by decide)

/-- C6 (amended): the allocator only ever produces lowercase usernames (a
valid custom username is already lowercase, since the pattern admits no
uppercase letter, and the random fallback is lower-cased), but the deposit
path performs no case normalization at all: `receiveEmail` creates and
stores the mailbox under the verbatim recipient string, and lookups under
any other string — including the lowercase form of a mixed-case recipient —
are unaffected by the deposit. -/
theorem deposit_address_verbatim (cap : Nat) (now : Int) (rand : String)
    (m : EmailManager) (a : String) (d : EmailData) :
    (alistGet (receiveEmail cap now rand m a d).2.emails a).isSome = true ∧
    (∀ a', a' ≠ a →
      getEmailsForAddress (receiveEmail cap now rand m a d).2 a' =
        getEmailsForAddress m a') ∧
    (∀ u, isValidUsername u = true → u.data.map Char.toLower = u.data) := by
  refine ⟨?_, ?_, ?_⟩
  · cases hget : alistGet m.emails a with
    | none =>
      simp [receiveEmail, hget, alistGet_alistSet_self]
    | some mb =>
      simp [receiveEmail, hget, alistGet_alistSet_self]
  · intro a' ha'
    cases hget : alistGet m.emails a with
    | none =>
      simp [receiveEmail, getEmailsForAddress, hget, alistGet_alistSet_ne _ _ _ _ ha']
    | some mb =>
      simp [receiveEmail, getEmailsForAddress, hget, alistGet_alistSet_ne _ _ _ _ ha']
  · intro u hu
    have hall : ∀ c ∈ u.data, validUsernameChar c = true := by
      simp only [isValidUsername, Bool.and_eq_true, decide_eq_true_eq,
        List.all_eq_true] at hu
      exact hu.2.2
    calc u.data.map Char.toLower = u.data.map id :=
          List.map_congr_left (fun c hc => toLower_validUsernameChar c (hall c hc))
      _ = u.data := List.map_id u.data

/-- After `ensureMailbox`, the address has a mailbox. -/
theorem ensureMailbox_isSome (m : EmailManager) (email : String) (now : Int) :
    (alistGet (ensureMailbox m email now).emails email).isSome = true := by
  unfold ensureMailbox
  cases hget : alistGet m.emails email with
  | none => simp [hget, alistGet_alistSet_self]
  | some mb => simp [hget]

/-- C9: a valid preferred local-part is used verbatim as the username of the
allocated address; a malformed one never fails the caller — the allocator
falls back to a random `adjective_noun_number` username, lower-cased and
joined by underscores — and in either case the allocation ensures a mailbox
exists for the resulting address. -/
theorem allocate_custom_or_fallback (now : Int) (ai ni num di : Nat) (m : EmailManager)
    (u : String) (dom : Option String) (ty : String) (hai : ai < 10) (hni : ni < 10) :
    (isValidUsername u = true →
      (generateEmailAddress now ai ni num di m
        { username := some u, domain := dom, type := ty }).1.email =
        u ++ "@" ++ (generateEmailAddress now ai ni num di m
          { username := some u, domain := dom, type := ty }).1.domain) ∧
    (isValidUsername u = false →
      ∃ adj noun, adj ∈ adjectives ∧ noun ∈ nouns ∧
        (generateEmailAddress now ai ni num di m
          { username := some u, domain := dom, type := ty }).1.email =
          (adj ++ "_" ++ noun ++ "_" ++ toString num).toLower ++ "@" ++
            (generateEmailAddress now ai ni num di m
              { username := some u, domain := dom, type := ty }).1.domain) ∧
    (alistGet (generateEmailAddress now ai ni num di m
        { username := some u, domain := dom, type := ty }).2.emails
      (generateEmailAddress now ai ni num di m
        { username := some u, domain := dom, type := ty }).1.email).isSome = true := by
  refine ⟨?_, ?_, ?_⟩
  · intro hv
    show chooseUsername ai ni num { username := some u, domain := dom, type := ty } ++ "@" ++ _
      = _
    rw [show chooseUsername ai ni num { username := some u, domain := dom, type := ty } = u
      from by simp [chooseUsername, hv]]
    rfl
  · intro hv
    refine ⟨adjectives.getD ai "", nouns.getD ni "", ?_, ?_, ?_⟩
    · interval_cases ai <;> decide
    · interval_cases ni <;> decide
    · show chooseUsername ai ni num { username := some u, domain := dom, type := ty } ++ "@" ++ _
        = _
      rw [show chooseUsername ai ni num { username := some u, domain := dom, type := ty } =
        generateRandomUsername ai ni num from by simp [chooseUsername, hv]]
      rfl
  · exact ensureMailbox_isSome m _ now

theorem optTraverse_map_encode {α β : Type} (f : β → Option α) (g : α → β) (l : List α)
    (h : ∀ x, f (g x) = some x) : optTraverse f (l.map g) = some l := by
  induction l with
  | nil => rfl
  | cons x xs ih => simp [optTraverse, h, ih]

theorem decodeHeaders_encodeHeaders (hs : List (String × String)) :
    decodeHeaders (encodeHeaders hs) = some hs := by
  unfold encodeHeaders decodeHeaders
  exact optTraverse_map_encode _ _ hs (fun x => rfl)

theorem decodeMessage_encodeMessage (msg : Message) :
    decodeMessage (encodeMessage msg) = some msg := by
  have hh := decodeHeaders_encodeHeaders msg.headers
  simp [decodeMessage, encodeMessage, alistGet, hh]

theorem decodeMailbox_encodeMailbox (mb : Mailbox) :
    decodeMailbox (encodeMailbox mb) = some mb := by
  have hm := optTraverse_map_encode decodeMessage encodeMessage mb.messages
    decodeMessage_encodeMessage
  simp [decodeMailbox, encodeMailbox, alistGet, hm]

theorem decodeStats_encodeStats (s : Stats) :
    decodeStats (encodeStats s) = some s := by
  simp [decodeStats, encodeStats, alistGet]

/-- C4: a snapshot round-trips losslessly — `loadFromFile` applied (in any
manager state `m'`) to the JSON tree `saveToFile` wrote for `m` restores
exactly `m`'s address → mailbox mapping (same addresses, same message
ids/order/read-flags) and `m`'s aggregate counters. -/
theorem save_load_roundtrip (savedAt : Int) (m m' : EmailManager) :
    saveToFile true savedAt m = some (snapshotJson savedAt m) ∧
    loadFromFile m' (snapshotJson savedAt m) =
      { m' with emails := m.emails, stats := m.stats } := by
  constructor
  · rfl
  · have he : decodeEmails (Json.jobj (m.emails.map (fun p => (p.1, encodeMailbox p.2)))) =
        some m.emails := by
      unfold decodeEmails
      exact optTraverse_map_encode _ _ m.emails
        (fun x => by simp [decodeMailbox_encodeMailbox])
    simp [loadFromFile, snapshotJson, alistGet, he, decodeStats_encodeStats]

/-- Witness for C1 at a concrete deposit (cap 100, the default). -/
theorem deposit_then_list_first_witness :
    getEmailsForAddress (receiveEmail 100 5 "abc" emptyManager "u@localhost" sampleData).2
      "u@localhost" ≠ [] ∧
    (getEmailsForAddress (receiveEmail 100 5 "abc" emptyManager "u@localhost" sampleData).2
      "u@localhost").head? =
      some (receiveEmail 100 5 "abc" emptyManager "u@localhost" sampleData).1.email ∧
    (receiveEmail 100 5 "abc" emptyManager "u@localhost" sampleData).1.email =
      mkSavedEmail 5 "abc" "u@localhost" sampleData ∧
    (receiveEmail 100 5 "abc" emptyManager "u@localhost" sampleData).1.email.read = false ∧
    (receiveEmail 100 5 "abc" emptyManager "u@localhost" sampleData).1.email.subject =
      sampleData.subject.getD "No Subject" ∧
    (receiveEmail 100 5 "abc" emptyManager "u@localhost" sampleData).1.email.fromAddr =
      sampleData.fromAddr ∧
    (receiveEmail 100 5 "abc" emptyManager "u@localhost" sampleData).1.id =
      (receiveEmail 100 5 "abc" emptyManager "u@localhost" sampleData).1.email.id ∧
    (receiveEmail 100 5 "abc" emptyManager "u@localhost" sampleData).1.totalMessages =
      (getEmailsForAddress (receiveEmail 100 5 "abc" emptyManager "u@localhost" sampleData).2
        "u@localhost").length :=
  deposit_then_list_first 100 5 "abc" emptyManager "u@localhost" sampleData (by decide)

/-- A concrete sequence of three deposits, for the C2 witness. -/
def sampleDeposits : List DepositInput :=
  [{ now := 1, rand := "a", data := sampleData },
   { now := 2, rand := "b", data := sampleData },
   { now := 3, rand := "c", data := sampleData }]

/-- Witness for C2: three deposits against cap 2 keep exactly the two most
recent, newest first. -/
theorem deposit_sequence_cap_invariant_witness :
    getEmailsForAddress (depositAll 2 "u@localhost" sampleDeposits emptyManager)
      "u@localhost" =
      ((sampleDeposits.map (savedOf "u@localhost")).reverse).take 2 ∧
    (getEmailsForAddress (depositAll 2 "u@localhost" sampleDeposits emptyManager)
      "u@localhost").length ≤ 2 :=
  deposit_sequence_cap_invariant 2 "u@localhost" sampleDeposits emptyManager rfl

/-- Witness for C5 (amended) at the concrete boundary store. -/
theorem cleanup_removes_expired_witness :
    alistGet (cleanupOldEmails 10 100 sampleManager).manager.emails "u@localhost" =
      (alistGet sampleManager.emails "u@localhost").bind (fun mb =>
        if (keptMessages 10 100 mb.messages).length = 0 ∧
            100 - mb.created > 10 then none
        else some { mb with messages := keptMessages 10 100 mb.messages }) :=
  cleanup_removes_expired 10 100 sampleManager (by decide) "u@localhost"

/-- Witness for C9 at a malformed custom username. -/
theorem allocate_custom_or_fallback_witness :
    (isValidUsername "Bad!" = true →
      (generateEmailAddress 7 0 1 42 0 emptyManager
        { username := some "Bad!", domain := none, type := "public" }).1.email =
        "Bad!" ++ "@" ++ (generateEmailAddress 7 0 1 42 0 emptyManager
          { username := some "Bad!", domain := none, type := "public" }).1.domain) ∧
    (isValidUsername "Bad!" = false →
      ∃ adj noun, adj ∈ adjectives ∧ noun ∈ nouns ∧
        (generateEmailAddress 7 0 1 42 0 emptyManager
          { username := some "Bad!", domain := none, type := "public" }).1.email =
          (adj ++ "_" ++ noun ++ "_" ++ toString 42).toLower ++ "@" ++
            (generateEmailAddress 7 0 1 42 0 emptyManager
              { username := some "Bad!", domain := none, type := "public" }).1.domain) ∧
    (alistGet (generateEmailAddress 7 0 1 42 0 emptyManager
        { username := some "Bad!", domain := none, type := "public" }).2.emails
      (generateEmailAddress 7 0 1 42 0 emptyManager
        { username := some "Bad!", domain := none, type := "public" }).1.email).isSome =
      true :=
  allocate_custom_or_fallback 7 0 1 42 0 emptyManager "Bad!" none "public"
    (by decide) (by decide)

/-- Witness for C10 at the concrete one-mailbox store. -/
theorem deleteAll_frame_witness :
    (deleteAllEmails sampleManager "u@localhost").1 = true ∧
    alistGet (deleteAllEmails sampleManager "u@localhost").2.emails "u@localhost" =
      some { sampleMailbox with messages := [] } ∧
    ({ sampleMailbox with messages := ([] : List Message) }).created =
      sampleMailbox.created ∧
    ({ sampleMailbox with messages := ([] : List Message) }).stats = sampleMailbox.stats ∧
    (getStats 100 (deleteAllEmails sampleManager "u@localhost").2).activeAddresses =
      (getStats 100 sampleManager).activeAddresses ∧
    getEmailsForAddress (deleteAllEmails sampleManager "u@localhost").2 "u@localhost" = [] ∧
    (deleteAllEmails (deleteAllEmails sampleManager "u@localhost").2 "u@localhost").1 =
      true :=
  deleteAll_frame 100 sampleManager "u@localhost" sampleMailbox rfl
